import Mathlib

/-!
Verification development for the bim-demo IFC viewer core.

The definitions below are shallow embeddings of the pipeline code:

* `colorId`, `streamStep`, `streamGeometryRun`, `streamGeometry` embed the
  geometry deduplicator (`src/ifc/geometry.ts`, function `streamGeometry`
  and its helper `colorId`).  The web-ifc API is modelled at its interface
  boundary: `GetGeometry`/`GetVertexArray`/`GetIndexArray` become a pure
  function `geomOf : Nat -> Option RawGeometry`, and the stream of placed
  geometries becomes a list of `Placement`s.  The state additionally records
  the list of `GetGeometry` calls made, in order.
* `buildBatch`, `buildBatches`, `buildingYields`, `buildProgressTrace` embed
  the instance-batch builder (`src/ifc/scene.ts`, generator `buildScene`):
  the per-group mesh construction and the sequence of yielded
  `BuildProgress` snapshots (for chunk size `c > 0`; the TS loop
  `for (i = 0; i < n; i += c)` yields `min (i+c) n` per chunk and then a
  single finalizing snapshot `{done: 0, total: 1}`).
* `resolvePickExpressID` embeds the pick resolution of
  `src/hooks/useIfcPicking.ts` (`metadata?.expressIDs?.[thinInstanceIndex ?? 0]`).
* `getModelBounds` embeds the bounds helper of `src/ifc/scene.ts`; the
  Babylon meshes are modelled by their contribution-relevant data
  (visibility, vertex count, world-space bounding box).
* `disposeScene` embeds `src/ifc/scene.ts`'s `disposeScene`; the Babylon
  scene is modelled at its interface boundary as lists of materials,
  transform nodes and meshes.  The material pass is the JavaScript
  `scene.materials.forEach(m => m.dispose())` over the LIVE array:
  `Material.dispose()` synchronously removes the material from
  `scene.materials` (Babylon's `Scene.removeMaterial` overwrites the slot
  with the array's last material and pops), so `forEach` skips the material
  moved into the visited slot — `disposeMaterialsFrom` reproduces this
  iteration exactly.  Disposing the "ifc-root" transform node removes it
  together with the meshes parented to it.

Numbers are modelled as rationals (the TS code uses IEEE doubles/floats; no
claim below depends on rounding of vertex or matrix data).
-/

-- ── Color quantizer (src/ifc/geometry.ts, colorId) ──────────────────────────

structure IfcColor where
  x : ℚ
  y : ℚ
  z : ℚ
  w : ℚ
deriving DecidableEq

/-- Embedding of `colorId`: absent color maps to 0, otherwise each channel is
scaled by 255, floored, and packed as `r + g*256 + b*65536 + a*16777216`. -/
def colorId : Option IfcColor → ℤ
  | none => 0
  | some c =>
      ⌊c.x * 255⌋ + ⌊c.y * 255⌋ * 256 + ⌊c.z * 255⌋ * 65536 + ⌊c.w * 255⌋ * 16777216

-- ── Geometry deduplicator (src/ifc/geometry.ts, streamGeometry) ─────────────

structure GeometryInstance where
  expressID : ℕ
  matrix : List ℚ
deriving DecidableEq

instance : Inhabited GeometryInstance := ⟨⟨0, []⟩⟩

structure GeometryGroup where
  geometryExpressID : ℕ
  colorId : ℤ
  color : Option IfcColor
  positions : List ℚ
  normals : List ℚ
  indices : List ℕ
  instances : List GeometryInstance
deriving DecidableEq

/-- Interleaved vertex/normal data as returned by `GetVertexArray`, plus the
index array: the result of one `GetGeometry` call. -/
structure RawGeometry where
  verts : List ℚ
  indices : List ℕ
deriving DecidableEq

/-- One placed geometry from the `StreamAllMeshes` callback: the element id of
the enclosing flat mesh, the placed geometry's express id (`none` models a
missing/undefined entry, which the code skips), the optional color and the
flat transformation. -/
structure Placement where
  expressID : ℕ
  geometryExpressID : Option ℕ
  color : Option IfcColor
  matrix : List ℚ
deriving DecidableEq

/-- Positions extracted from the interleaved 6-stride vertex array. -/
def extractPositions (verts : List ℚ) : List ℚ :=
  (List.range (verts.length / 6)).flatMap fun v =>
    [verts.getD (v * 6) 0, verts.getD (v * 6 + 1) 0, verts.getD (v * 6 + 2) 0]

/-- Normals extracted from the interleaved 6-stride vertex array. -/
def extractNormals (verts : List ℚ) : List ℚ :=
  (List.range (verts.length / 6)).flatMap fun v =>
    [verts.getD (v * 6 + 3) 0, verts.getD (v * 6 + 4) 0, verts.getD (v * 6 + 5) 0]

/-- Deduplication state: the groups in `Map` insertion order and the list of
shape ids passed to `GetGeometry`, in call order. -/
structure StreamState where
  groups : List GeometryGroup
  calls : List ℕ
deriving DecidableEq

/-- The deduplication key `(geometryExpressID, colorId)` (the TS code uses the
string `` `${geometryExpressID}-${colorId}` ``, injective in the pair). -/
def groupKey (g : GeometryGroup) : ℕ × ℤ := (g.geometryExpressID, g.colorId)

/-- Appending an instance to the group with the given key (the `Map.get` +
`instances.push` path, expressed over the ordered group list). -/
def appendInst (k : ℕ × ℤ) (inst : GeometryInstance) (g : GeometryGroup) : GeometryGroup :=
  if groupKey g = k then { g with instances := g.instances ++ [inst] } else g

/-- One iteration of the placed-geometry loop in `streamGeometry`. -/
def streamStep (geomOf : ℕ → Option RawGeometry) (s : StreamState) (p : Placement) :
    StreamState :=
  match p.geometryExpressID with
  | none => s
  | some gid =>
      let cid := colorId p.color
      let inst : GeometryInstance := ⟨p.expressID, p.matrix⟩
      if s.groups.any fun g => decide (groupKey g = (gid, cid)) then
        { s with groups := s.groups.map (appendInst (gid, cid) inst) }
      else
        let calls := s.calls ++ [gid]
        match geomOf gid with
        | none => { s with calls := calls }
        | some raw =>
            if raw.verts.length = 0 ∨ raw.indices.length = 0 then
              { s with calls := calls }
            else
              { groups := s.groups ++
                  [⟨gid, cid, p.color, extractPositions raw.verts,
                    extractNormals raw.verts, raw.indices, [inst]⟩],
                calls := calls }

/-- Running `streamGeometry` over the whole placement stream. -/
def streamGeometryRun (geomOf : ℕ → Option RawGeometry) (ps : List Placement) :
    StreamState :=
  ps.foldl (streamStep geomOf) ⟨[], []⟩

/-- The group list returned by `streamGeometry` (`Array.from(groups.values())`). -/
def streamGeometry (geomOf : ℕ → Option RawGeometry) (ps : List Placement) :
    List GeometryGroup :=
  (streamGeometryRun geomOf ps).groups

/-- Whether the shape source yields a usable payload for a shape id: a
geometry with nonzero vertex and index data (the code skips the group when
`GetGeometry` returns nothing or either array is empty). -/
def shapeAccepted (geomOf : ℕ → Option RawGeometry) (gid : ℕ) : Bool :=
  match geomOf gid with
  | none => false
  | some raw => decide (raw.verts.length ≠ 0 ∧ raw.indices.length ≠ 0)

/-- The deduplication key of a placement when the placement is valid (its
geometry id is present and its shape payload is accepted); `none` otherwise. -/
def validKey (geomOf : ℕ → Option RawGeometry) (p : Placement) : Option (ℕ × ℤ) :=
  match p.geometryExpressID with
  | none => none
  | some gid => if shapeAccepted geomOf gid then some (gid, colorId p.color) else none

-- ── Deduplication invariant ─────────────────────────────────────────────────

lemma groupKey_appendInst (k : ℕ × ℤ) (inst : GeometryInstance) (g : GeometryGroup) :
    groupKey (appendInst k inst g) = groupKey g := by
  unfold appendInst
  split <;> rfl

lemma map_groupKey_appendInst (gs : List GeometryGroup) (k : ℕ × ℤ)
    (inst : GeometryInstance) :
    (gs.map (appendInst k inst)).map groupKey = gs.map groupKey := by
  rw [List.map_map]
  exact List.map_congr_left fun g _ => groupKey_appendInst k inst g

lemma sum_len_appendInst (gs : List GeometryGroup) (k : ℕ × ℤ)
    (inst : GeometryInstance) (hnd : (gs.map groupKey).Nodup) :
    ((gs.map (appendInst k inst)).map fun g => g.instances.length).sum
      = ((gs.map fun g => g.instances.length).sum)
          + (if k ∈ gs.map groupKey then 1 else 0) := by
  induction gs with
  | nil => simp
  | cons g gs ih =>
      rw [List.map_cons, List.nodup_cons] at hnd
      obtain ⟨hg, hnd'⟩ := hnd
      simp only [List.map_cons, List.sum_cons, ih hnd', List.mem_cons]
      unfold appendInst
      by_cases h : groupKey g = k
      · have hknot : k ∉ gs.map groupKey := h ▸ hg
        simp only [if_pos h, List.length_append, List.length_singleton,
          if_pos (Or.inl h.symm), if_neg hknot]
        omega
      · have hne : ¬ (k = groupKey g) := fun hk => h hk.symm
        by_cases hk : k ∈ gs.map groupKey
        · simp only [if_neg h, if_pos hk, if_pos (Or.inr hk)]
          omega
        · have : ¬ (k = groupKey g ∨ k ∈ gs.map groupKey) := by tauto
          simp only [if_neg h, if_neg hk, if_neg this]
          omega

lemma validKey_some {geomOf : ℕ → Option RawGeometry} {p : Placement} {k : ℕ × ℤ}
    (h : validKey geomOf p = some k) :
    p.geometryExpressID = some k.1 ∧ shapeAccepted geomOf k.1 = true
      ∧ k.2 = colorId p.color := by
  cases hgid : p.geometryExpressID with
  | none => simp [validKey, hgid] at h
  | some gid =>
      simp only [validKey, hgid] at h
      by_cases hacc : shapeAccepted geomOf gid = true
      · rw [if_pos hacc] at h
        injection h with h2
        subst h2
        exact ⟨rfl, hacc, rfl⟩
      · rw [if_neg hacc] at h
        exact absurd h (by simp)

/-- Invariant of the deduplication loop: group keys are distinct, a key has a
group exactly when a valid placement with that key was processed, and the
instances recorded so far count the valid placements processed so far. -/
def streamInv (geomOf : ℕ → Option RawGeometry) (seen : List Placement)
    (s : StreamState) : Prop :=
  ((s.groups.map groupKey).Nodup) ∧
  (∀ k : ℕ × ℤ, k ∈ s.groups.map groupKey ↔ k ∈ seen.filterMap (validKey geomOf)) ∧
  ((s.groups.map fun g => g.instances.length).sum
      = (seen.filterMap (validKey geomOf)).length)

lemma streamStep_inv (geomOf : ℕ → Option RawGeometry) (seen : List Placement)
    (s : StreamState) (p : Placement) (h : streamInv geomOf seen s) :
    streamInv geomOf (seen ++ [p]) (streamStep geomOf s p) := by
  obtain ⟨hnd, hmem, hsum⟩ := h
  cases hgid : p.geometryExpressID with
  | none =>
      have hvkp : validKey geomOf p = none := by simp [validKey, hgid]
      simp only [streamStep, hgid]
      refine ⟨hnd, ?_, ?_⟩
      · intro k
        rw [List.filterMap_append]
        simp only [List.filterMap_cons, hvkp, List.filterMap_nil, List.append_nil]
        exact hmem k
      · rw [List.filterMap_append]
        simp only [List.filterMap_cons, hvkp, List.filterMap_nil, List.append_nil]
        exact hsum
  | some gid =>
      by_cases hseen : (gid, colorId p.color) ∈ s.groups.map groupKey
      · have hany : (s.groups.any fun g => decide (groupKey g = (gid, colorId p.color)))
            = true := by
          rw [List.any_eq_true]
          obtain ⟨g, hg, hkey⟩ := List.mem_map.mp hseen
          exact ⟨g, hg, by simpa using hkey⟩
        have hacc : shapeAccepted geomOf gid = true := by
          obtain ⟨q, _, hvk⟩ := List.mem_filterMap.mp ((hmem _).mp hseen)
          exact (validKey_some hvk).2.1
        have hvkp : validKey geomOf p = some (gid, colorId p.color) := by
          simp [validKey, hgid, hacc]
        simp only [streamStep, hgid]
        rw [if_pos hany]
        refine ⟨?_, ?_, ?_⟩
        · rw [map_groupKey_appendInst]
          exact hnd
        · intro k
          rw [map_groupKey_appendInst, List.filterMap_append]
          simp only [List.filterMap_cons, hvkp, List.filterMap_nil]
          rw [List.mem_append, hmem k]
          constructor
          · exact fun hk => Or.inl hk
          · rintro (hk | hk)
            · exact hk
            · simp only [List.mem_singleton] at hk
              subst hk
              exact (hmem _).mp hseen
        · rw [sum_len_appendInst _ _ _ hnd, if_pos hseen, List.filterMap_append]
          simp only [List.filterMap_cons, hvkp, List.filterMap_nil, List.length_append,
            List.length_singleton]
          omega
      · have hany : ¬ ((s.groups.any fun g => decide (groupKey g = (gid, colorId p.color)))
            = true) := by
          rw [List.any_eq_true]
          rintro ⟨g, hg, hkey⟩
          rw [decide_eq_true_eq] at hkey
          exact hseen (List.mem_map.mpr ⟨g, hg, hkey⟩)
        simp only [streamStep, hgid]
        rw [if_neg hany]
        cases hra : geomOf gid with
        | none =>
            have hvkp : validKey geomOf p = none := by
              simp [validKey, hgid, shapeAccepted, hra]
            refine ⟨hnd, ?_, ?_⟩
            · intro k
              rw [List.filterMap_append]
              simp only [List.filterMap_cons, hvkp, List.filterMap_nil, List.append_nil]
              exact hmem k
            · rw [List.filterMap_append]
              simp only [List.filterMap_cons, hvkp, List.filterMap_nil, List.append_nil]
              exact hsum
        | some raw =>
            dsimp only
            by_cases hemp : raw.verts.length = 0 ∨ raw.indices.length = 0
            · rw [if_pos hemp]
              have hvkp : validKey geomOf p = none := by
                have hno : ¬ (raw.verts.length ≠ 0 ∧ raw.indices.length ≠ 0) := by tauto
                have hsa : shapeAccepted geomOf gid = false := by
                  simp only [shapeAccepted, hra, decide_eq_false_iff_not]
                  exact hno
                simp [validKey, hgid, hsa]
              refine ⟨hnd, ?_, ?_⟩
              · intro k
                rw [List.filterMap_append]
                simp only [List.filterMap_cons, hvkp, List.filterMap_nil, List.append_nil]
                exact hmem k
              · rw [List.filterMap_append]
                simp only [List.filterMap_cons, hvkp, List.filterMap_nil, List.append_nil]
                exact hsum
            · rw [if_neg hemp]
              have hacc : shapeAccepted geomOf gid = true := by
                have hyes : raw.verts.length ≠ 0 ∧ raw.indices.length ≠ 0 := by tauto
                simp [shapeAccepted, hra, hyes]
              have hvkp : validKey geomOf p = some (gid, colorId p.color) := by
                simp [validKey, hgid, hacc]
              refine ⟨?_, ?_, ?_⟩
              · rw [List.map_append]
                simp only [List.map_cons, List.map_nil, groupKey]
                rw [List.nodup_append]
                exact ⟨hnd, List.nodup_singleton _, by
                  intro k hk
                  simp only [List.mem_singleton]
                  rintro rfl
                  exact hseen hk⟩
              · intro k
                rw [List.map_append, List.filterMap_append]
                simp only [List.map_cons, List.map_nil, groupKey, List.filterMap_cons,
                  hvkp, List.filterMap_nil]
                rw [List.mem_append, List.mem_append, hmem k]
              · rw [List.map_append, List.sum_append, List.filterMap_append]
                simp [hvkp, hsum]

lemma streamRun_inv (geomOf : ℕ → Option RawGeometry) :
    ∀ (ps : List Placement) (seen : List Placement) (s : StreamState),
      streamInv geomOf seen s →
      streamInv geomOf (seen ++ ps) (ps.foldl (streamStep geomOf) s) := by
  intro ps
  induction ps with
  | nil => intro seen s h; simpa using h
  | cons p ps ih =>
      intro seen s h
      have h2 := ih (seen ++ [p]) _ (streamStep_inv geomOf seen s p h)
      simpa [List.append_assoc] using h2

lemma streamInv_run (geomOf : ℕ → Option RawGeometry) (ps : List Placement) :
    streamInv geomOf ps (streamGeometryRun geomOf ps) := by
  have h0 : streamInv geomOf [] ⟨[], []⟩ := by
    refine ⟨by simp, by simp, by simp⟩
  have := streamRun_inv geomOf ps [] ⟨[], []⟩ h0
  simpa [streamGeometryRun] using this

lemma stream_counts_aux (geomOf : ℕ → Option RawGeometry) (ps : List Placement) :
    (streamGeometry geomOf ps).length = (ps.filterMap (validKey geomOf)).dedup.length ∧
    ((streamGeometry geomOf ps).map fun g => g.instances.length).sum
      = (ps.filterMap (validKey geomOf)).length := by
  obtain ⟨hnd, hmem, hsum⟩ := streamInv_run geomOf ps
  refine ⟨?_, hsum⟩
  have hfin : ((streamGeometryRun geomOf ps).groups.map groupKey).toFinset
      = (ps.filterMap (validKey geomOf)).toFinset := by
    ext k
    simp only [List.mem_toFinset]
    exact hmem k
  calc (streamGeometry geomOf ps).length
      = ((streamGeometryRun geomOf ps).groups.map groupKey).length :=
        (List.length_map _ _).symm
    _ = ((streamGeometryRun geomOf ps).groups.map groupKey).toFinset.card :=
        (List.toFinset_card_of_nodup hnd).symm
    _ = (ps.filterMap (validKey geomOf)).toFinset.card := by rw [hfin]
    _ = (ps.filterMap (validKey geomOf)).dedup.length := List.card_toFinset _

-- ── GetGeometry call accounting ─────────────────────────────────────────────

lemma streamStep_calls (geomOf : ℕ → Option RawGeometry) (s : StreamState)
    (p : Placement)
    (hp : Option.all (shapeAccepted geomOf) p.geometryExpressID = true)
    (h : s.calls = s.groups.map fun g => g.geometryExpressID) :
    (streamStep geomOf s p).calls
      = (streamStep geomOf s p).groups.map fun g => g.geometryExpressID := by
  cases hgid : p.geometryExpressID with
  | none => simpa [streamStep, hgid] using h
  | some gid =>
      have hacc : shapeAccepted geomOf gid = true := by
        rw [hgid] at hp
        simpa [Option.all] using hp
      simp only [streamStep, hgid]
      by_cases hany : (s.groups.any fun g => decide (groupKey g = (gid, colorId p.color)))
          = true
      · rw [if_pos hany]
        have hmaps : s.groups.map ((fun g => g.geometryExpressID)
              ∘ appendInst (gid, colorId p.color) ⟨p.expressID, p.matrix⟩)
            = s.groups.map fun g => g.geometryExpressID :=
          List.map_congr_left fun g _ => by
            simp only [Function.comp_apply, appendInst]
            split <;> rfl
        show s.calls = (s.groups.map
            (appendInst (gid, colorId p.color) ⟨p.expressID, p.matrix⟩)).map
            fun g => g.geometryExpressID
        rw [List.map_map, hmaps]
        exact h
      · rw [if_neg hany]
        cases hra : geomOf gid with
        | none => simp [shapeAccepted, hra] at hacc
        | some raw =>
            dsimp only
            have hne : ¬ (raw.verts.length = 0 ∨ raw.indices.length = 0) := by
              simp only [shapeAccepted, hra, decide_eq_true_eq] at hacc
              tauto
            rw [if_neg hne]
            dsimp only
            rw [List.map_append, h]
            rfl

lemma streamRun_calls (geomOf : ℕ → Option RawGeometry) :
    ∀ (ps : List Placement) (s : StreamState),
      (∀ p ∈ ps, Option.all (shapeAccepted geomOf) p.geometryExpressID = true) →
      s.calls = (s.groups.map fun g => g.geometryExpressID) →
      (ps.foldl (streamStep geomOf) s).calls
        = ((ps.foldl (streamStep geomOf) s).groups.map fun g => g.geometryExpressID) := by
  intro ps
  induction ps with
  | nil => intro s _ h; simpa using h
  | cons p ps ih =>
      intro s hacc h
      simp only [List.foldl_cons]
      exact ih _ (fun q hq => hacc q (List.mem_cons_of_mem _ hq))
        (streamStep_calls geomOf s p (hacc p (List.mem_cons_self _ _)) h)

-- ── Claim C1 ────────────────────────────────────────────────────────────────

/-- C1: for every placement stream, `streamGeometry` returns exactly one group
per distinct `(shapeID, colorKey)` pair among the valid placements (those with
a present geometry id whose shape payload is accepted), and the instances of
all groups together count exactly the valid placements. -/
theorem stream_geometry_counts (geomOf : ℕ → Option RawGeometry)
    (ps : List Placement) :
    (streamGeometry geomOf ps).length = (ps.filterMap (validKey geomOf)).dedup.length ∧
    ((streamGeometry geomOf ps).map fun g => g.instances.length).sum
      = (ps.filterMap (validKey geomOf)).length :=
  stream_counts_aux geomOf ps

-- ── Claim C2 ────────────────────────────────────────────────────────────────

def rawCube : RawGeometry :=
  ⟨[0, 0, 0, 0, 0, 1, 1, 0, 0, 0, 0, 1, 0, 1, 0, 0, 0, 1], [0, 1, 2]⟩

def geomOfDemo : ℕ → Option RawGeometry := fun _ => some rawCube

def redColor : IfcColor := ⟨1, 0, 0, 1⟩

def greenColor : IfcColor := ⟨0, 1, 0, 1⟩

/-- Two placements of the same shape (id 1) with different colors. -/
def psTwoColors : List Placement :=
  [⟨10, some 1, some redColor, []⟩, ⟨11, some 1, some greenColor, []⟩]

lemma colorId_redColor : colorId (some redColor) = 4278190335 := by
  norm_num [colorId, redColor]

lemma colorId_greenColor : colorId (some greenColor) = 4278255360 := by
  norm_num [colorId, greenColor]

/-- A run over two placements of one shape id whose colors quantize to
different keys: `GetGeometry` is called once per placement, twice for the one
shape id. -/
lemma calls_two_colors (geomOf : ℕ → Option RawGeometry) (p q : Placement)
    (gid : ℕ) (hp : p.geometryExpressID = some gid)
    (hq : q.geometryExpressID = some gid)
    (hne : colorId p.color ≠ colorId q.color) (raw : RawGeometry)
    (hraw : geomOf gid = some raw) (hv : raw.verts.length ≠ 0)
    (hi : raw.indices.length ≠ 0) :
    (streamGeometryRun geomOf [p, q]).calls = [gid, gid] := by
  have hemp : ¬ (raw.verts.length = 0 ∨ raw.indices.length = 0) := by tauto
  have h1 : streamStep geomOf ⟨[], []⟩ p
      = ⟨[⟨gid, colorId p.color, p.color, extractPositions raw.verts,
            extractNormals raw.verts, raw.indices, [⟨p.expressID, p.matrix⟩]⟩],
         [gid]⟩ := by
    simp only [streamStep, hp, List.any_nil, Bool.false_eq_true, if_false, hraw]
    rw [if_neg hemp]
    rfl
  have hany2 : (([⟨gid, colorId p.color, p.color, extractPositions raw.verts,
        extractNormals raw.verts, raw.indices,
        [⟨p.expressID, p.matrix⟩]⟩] : List GeometryGroup).any
          fun g => decide (groupKey g = (gid, colorId q.color))) ≠ true := by
    intro hk
    rw [List.any_cons, List.any_nil] at hk
    simp only [Bool.or_false, decide_eq_true_eq, groupKey, Prod.mk.injEq] at hk
    exact hne hk.2
  show (streamStep geomOf (streamStep geomOf ⟨[], []⟩ p) q).calls = [gid, gid]
  rw [h1]
  simp only [streamStep, hq]
  rw [if_neg hany2, hraw]
  dsimp only
  rw [if_neg hemp]
  rfl

/-- C2 counterexample: on two placements of the one shape id 1 carrying two
different colors (red and green), `streamGeometry` calls `GetGeometry` twice
for shape 1 even though only one distinct shapeID occurs — the claim "at most
once per distinct shapeID" is false; deduplication is keyed by
(shapeID, colorKey). -/
theorem stream_geometry_fetch_per_shape_cex :
    (streamGeometryRun geomOfDemo psTwoColors).calls = [1, 1] ∧
    (psTwoColors.filterMap fun p => p.geometryExpressID).dedup = [1] := by
  constructor
  · exact calls_two_colors geomOfDemo _ _ 1 rfl rfl
      (by rw [colorId_redColor, colorId_greenColor]; omega) rawCube rfl
      (by decide) (by decide)
  · decide

/-- C2 amended: provided every shape id referenced by a placement has an
accepted payload, `GetGeometry` is called exactly once per distinct
`(shapeID, colorKey)` pair — one call per returned group, in group order. -/
theorem stream_geometry_fetch_per_key (geomOf : ℕ → Option RawGeometry)
    (ps : List Placement)
    (hacc : ∀ p ∈ ps, Option.all (shapeAccepted geomOf) p.geometryExpressID = true) :
    (streamGeometryRun geomOf ps).calls
        = ((streamGeometry geomOf ps).map fun g => g.geometryExpressID) ∧
    (streamGeometryRun geomOf ps).calls.length
        = (ps.filterMap (validKey geomOf)).dedup.length := by
  have h1 : (streamGeometryRun geomOf ps).calls
      = ((streamGeometry geomOf ps).map fun g => g.geometryExpressID) :=
    streamRun_calls geomOf ps ⟨[], []⟩ hacc rfl
  refine ⟨h1, ?_⟩
  rw [h1, List.length_map]
  exact (stream_counts_aux geomOf ps).1

/-- C2 witness: the amended statement evaluated on the two-color stream. -/
theorem stream_geometry_fetch_per_key_witness :
    (streamGeometryRun geomOfDemo psTwoColors).calls
        = ((streamGeometry geomOfDemo psTwoColors).map fun g => g.geometryExpressID) ∧
    (streamGeometryRun geomOfDemo psTwoColors).calls.length
        = (psTwoColors.filterMap (validKey geomOfDemo)).dedup.length :=
  stream_geometry_fetch_per_key geomOfDemo psTwoColors (by decide)

-- ── Instance-batch builder (src/ifc/scene.ts, buildScene) ───────────────────

/-- Metadata assigned to a built mesh: `{ expressID, modelID }` in the
singleton branch, `{ expressIDs, modelID }` in the thin-instance branch. -/
inductive BatchMetadata where
  | single (expressID : ℕ) (modelID : ℕ)
  | multi (expressIDs : List ℕ) (modelID : ℕ)
deriving DecidableEq

/-- A built mesh, modelled by the state `buildScene` sets on it: name,
pickability, geometry data, the baked pre-transform (singleton branch), the
thin-instance matrix buffer (multi branch), the thin-instance picking flag
(`none` when never assigned), metadata, and the frozen world matrix. -/
structure Batch where
  name : String
  isPickable : Bool
  isVisible : Bool
  positions : List ℚ
  normals : List ℚ
  indices : List ℕ
  preTransform : Option (List ℚ)
  thinMatrixBuffer : Option (List ℚ)
  thinInstanceEnablePicking : Option Bool
  meta : BatchMetadata
  frozenWorldMatrix : Bool
deriving DecidableEq

/-- One 16-float slot of the thin-instance buffer: `Float32Array.set` writes
the instance matrix at its offset, leaving the slot's zero-initialised tail in
place (the source guarantees 16 floats per matrix, in which case this is the
matrix itself). -/
def pad16 (m : List ℚ) : List ℚ :=
  m.take 16 ++ List.replicate (16 - m.length) 0

/-- The flat `instances.length × 16` thin-instance matrix buffer, in placement
order. -/
def flatten16 (is : List GeometryInstance) : List ℚ :=
  is.flatMap fun i => pad16 i.matrix

/-- Embedding of the per-group mesh construction in `buildScene`'s chunk loop:
a single-instance group gets its transform baked via `setPreTransformMatrix`
and metadata `{ expressID, modelID }`; a group with any other instance count
gets a thin-instance buffer and metadata `{ expressIDs, modelID }`. -/
def buildBatch (modelID : ℕ) (g : GeometryGroup) : Batch :=
  if g.instances.length = 1 then
    { name := "ifc-geo-" ++ toString g.geometryExpressID,
      isPickable := false,
      isVisible := true,
      positions := g.positions,
      normals := g.normals,
      indices := g.indices,
      preTransform := some g.instances.headI.matrix,
      thinMatrixBuffer := none,
      thinInstanceEnablePicking := none,
      meta := BatchMetadata.single g.instances.headI.expressID modelID,
      frozenWorldMatrix := true }
  else
    { name := "ifc-geo-" ++ toString g.geometryExpressID,
      isPickable := false,
      isVisible := true,
      positions := g.positions,
      normals := g.normals,
      indices := g.indices,
      preTransform := none,
      thinMatrixBuffer := some (flatten16 g.instances),
      thinInstanceEnablePicking := some false,
      meta := BatchMetadata.multi (g.instances.map fun i => i.expressID) modelID,
      frozenWorldMatrix := true }

/-- All meshes produced by one `buildScene` run, in group order (the chunking
of the loop does not change which meshes are built or their order). -/
def buildBatches (modelID : ℕ) (gs : List GeometryGroup) : List Batch :=
  gs.map (buildBatch modelID)

/-- The element lookup of a batch: the recorded elementID at index 0 for a
singleton batch, the recorded `expressIDs` array for an instanced batch. -/
def elementLookup (b : Batch) : List ℕ :=
  match b.meta with
  | BatchMetadata.single e _ => [e]
  | BatchMetadata.multi ids _ => ids

-- ── Pick resolution (src/hooks/useIfcPicking.ts) ────────────────────────────

/-- Embedding of the pick handler's elementID lookup
`metadata?.expressIDs?.[pickResult.thinInstanceIndex ?? 0]`: on singleton
metadata there is no `expressIDs` field, so the optional chain yields no
elementID; on instanced metadata the array is indexed (out of range yields
nothing). -/
def resolvePickExpressID (m : BatchMetadata) (thinInstanceIndex : Option ℕ) :
    Option ℕ :=
  match m with
  | BatchMetadata.single _ _ => none
  | BatchMetadata.multi ids _ => ids.get? (thinInstanceIndex.getD 0)

lemma pad16_length (m : List ℚ) : (pad16 m).length = 16 := by
  simp only [pad16, List.length_append, List.length_take, List.length_replicate]
  omega

lemma flatten16_length (is : List GeometryInstance) :
    (flatten16 is).length = 16 * is.length := by
  induction is with
  | nil => simp [flatten16]
  | cons i is ih =>
      show (pad16 i.matrix ++ flatten16 is).length = 16 * (i :: is).length
      rw [List.length_append, pad16_length, ih, List.length_cons]
      ring

lemma pad16_of_length_16 (m : List ℚ) (h : m.length = 16) : pad16 m = m := by
  simp only [pad16, h]
  rw [← h, List.take_length]
  simp

lemma flatten16_of_all16 (is : List GeometryInstance)
    (h : ∀ i ∈ is, i.matrix.length = 16) :
    flatten16 is = is.flatMap fun i => i.matrix := by
  induction is with
  | nil => rfl
  | cons i is ih =>
      show pad16 i.matrix ++ flatten16 is = i.matrix ++ is.flatMap fun i => i.matrix
      rw [pad16_of_length_16 _ (h i (List.mem_cons_self _ _)),
        ih fun j hj => h j (List.mem_cons_of_mem _ hj)]

-- ── Claim C4 ────────────────────────────────────────────────────────────────

/-- C4: a one-instance group builds a singleton batch — transform baked as the
pre-transform, no thin-instance buffer, the single elementID recorded at
lookup index 0; a group with more than one instance builds an instanced batch
with a flat `k × 16` matrix buffer in placement order and
`elementLookup[i] = instances[i].elementID`. -/
theorem build_batch_modes (modelID : ℕ) (g : GeometryGroup) :
    (g.instances.length = 1 →
      (buildBatch modelID g).preTransform = some g.instances.headI.matrix ∧
      (buildBatch modelID g).thinMatrixBuffer = none ∧
      (buildBatch modelID g).meta
        = BatchMetadata.single g.instances.headI.expressID modelID ∧
      elementLookup (buildBatch modelID g) = [g.instances.headI.expressID]) ∧
    (1 < g.instances.length →
      (buildBatch modelID g).preTransform = none ∧
      (buildBatch modelID g).thinMatrixBuffer = some (flatten16 g.instances) ∧
      ((buildBatch modelID g).thinMatrixBuffer.map List.length)
        = some (16 * g.instances.length) ∧
      (buildBatch modelID g).meta
        = BatchMetadata.multi (g.instances.map fun i => i.expressID) modelID ∧
      elementLookup (buildBatch modelID g)
        = (g.instances.map fun i => i.expressID) ∧
      ((∀ i ∈ g.instances, i.matrix.length = 16) →
        flatten16 g.instances = g.instances.flatMap fun i => i.matrix)) := by
  constructor
  · intro h1
    simp [buildBatch, if_pos h1, elementLookup]
  · intro h2
    have hne : ¬ (g.instances.length = 1) := by omega
    refine ⟨?_, ?_, ?_, ?_, ?_, fun h16 => flatten16_of_all16 g.instances h16⟩
    · simp [buildBatch, if_neg hne]
    · simp [buildBatch, if_neg hne]
    · simp [buildBatch, if_neg hne, flatten16_length]
    · simp [buildBatch, if_neg hne]
    · simp [buildBatch, if_neg hne, elementLookup]

def idMat16 : List ℚ :=
  [1, 0, 0, 0, 0, 1, 0, 0, 0, 0, 1, 0, 0, 0, 0, 1]

/-- A deduplicated group with a single placement (elementID 7). -/
def gSingle : GeometryGroup :=
  ⟨5, 0, none, [0, 0, 0, 1, 0, 0, 0, 1, 0], [0, 0, 1, 0, 0, 1, 0, 0, 1],
    [0, 1, 2], [⟨7, idMat16⟩]⟩

/-- A deduplicated group with two placements (elementIDs 7 and 8). -/
def gDouble : GeometryGroup :=
  ⟨5, 0, none, [0, 0, 0, 1, 0, 0, 0, 1, 0], [0, 0, 1, 0, 0, 1, 0, 0, 1],
    [0, 1, 2], [⟨7, idMat16⟩, ⟨8, idMat16⟩]⟩

/-- C4 witness: the mode selection evaluated on a one-instance group and a
two-instance group. -/
theorem build_batch_modes_witness :
    ((buildBatch 0 gSingle).preTransform = some gSingle.instances.headI.matrix ∧
     (buildBatch 0 gSingle).thinMatrixBuffer = none ∧
     (buildBatch 0 gSingle).meta
        = BatchMetadata.single gSingle.instances.headI.expressID 0 ∧
     elementLookup (buildBatch 0 gSingle) = [gSingle.instances.headI.expressID]) ∧
    ((buildBatch 0 gDouble).preTransform = none ∧
     (buildBatch 0 gDouble).thinMatrixBuffer = some (flatten16 gDouble.instances) ∧
     ((buildBatch 0 gDouble).thinMatrixBuffer.map List.length)
        = some (16 * gDouble.instances.length) ∧
     (buildBatch 0 gDouble).meta
        = BatchMetadata.multi (gDouble.instances.map fun i => i.expressID) 0 ∧
     elementLookup (buildBatch 0 gDouble)
        = (gDouble.instances.map fun i => i.expressID) ∧
     ((∀ i ∈ gDouble.instances, i.matrix.length = 16) →
        flatten16 gDouble.instances = gDouble.instances.flatMap fun i => i.matrix)) :=
  ⟨(build_batch_modes 0 gSingle).1 rfl,
   (build_batch_modes 0 gDouble).2 (by norm_num [gDouble])⟩

-- ── Claim C3 ────────────────────────────────────────────────────────────────

/-- C3 counterexample: for a singleton-mode batch built from a one-instance
group, pick resolution returns no elementID at all (the handler reads only
`metadata.expressIDs`, which a singleton batch does not carry), instead of the
elementID 7 recorded at lookup index 0; no `InvalidPickIndex` error exists in
the code. -/
theorem resolve_pick_cex :
    resolvePickExpressID (buildBatch 0 gSingle).meta (some 0) = none ∧
    elementLookup (buildBatch 0 gSingle) = [7] := by
  exact ⟨rfl, rfl⟩

/-- C3 amended: for an instanced-mode batch, resolution at index i returns
exactly `elementLookup[i]` when i is in range and silently no result when i is
out of range (`Array` indexing, no error signalled); for a singleton-mode
batch resolution always returns no result, the recorded elementID being
unreachable through `metadata.expressIDs`. -/
theorem resolve_pick_amended (modelID : ℕ) (g : GeometryGroup) (i : ℕ) :
    (g.instances.length ≠ 1 →
      resolvePickExpressID (buildBatch modelID g).meta (some i)
        = (elementLookup (buildBatch modelID g)).get? i ∧
      elementLookup (buildBatch modelID g)
        = (g.instances.map fun j => j.expressID)) ∧
    (g.instances.length = 1 →
      resolvePickExpressID (buildBatch modelID g).meta (some i) = none) := by
  constructor
  · intro h
    simp [buildBatch, if_neg h, resolvePickExpressID, elementLookup]
  · intro h
    simp [buildBatch, if_pos h, resolvePickExpressID]

/-- C3 witness: the amended statement evaluated on the two-instance group (in
range) and the one-instance group. -/
theorem resolve_pick_amended_witness :
    (resolvePickExpressID (buildBatch 0 gDouble).meta (some 0)
        = (elementLookup (buildBatch 0 gDouble)).get? 0 ∧
     elementLookup (buildBatch 0 gDouble)
        = (gDouble.instances.map fun j => j.expressID)) ∧
    resolvePickExpressID (buildBatch 0 gSingle).meta (some 0) = none :=
  ⟨(resolve_pick_amended 0 gDouble 0).1 (by norm_num [gDouble]),
   (resolve_pick_amended 0 gSingle 0).2 rfl⟩

-- ── Claim C9 ────────────────────────────────────────────────────────────────

/-- C9: every mesh built by `buildScene` has `isPickable = false`, and every
instanced-mode mesh additionally has `thinInstanceEnablePicking = false`, so
no built mesh participates in pointer picking. -/
theorem built_meshes_not_pickable (modelID : ℕ) (gs : List GeometryGroup)
    (b : Batch) (hb : b ∈ buildBatches modelID gs) :
    b.isPickable = false ∧
    (b.thinMatrixBuffer.isSome = true →
      b.thinInstanceEnablePicking = some false) := by
  obtain ⟨g, _, rfl⟩ := List.mem_map.mp hb
  unfold buildBatch
  by_cases h : g.instances.length = 1
  · rw [if_pos h]
    exact ⟨rfl, by intro hs; simp at hs⟩
  · rw [if_neg h]
    exact ⟨rfl, fun _ => rfl⟩

/-- C9 witness: pickability flags evaluated on a mesh built from the
two-instance group. -/
theorem built_meshes_not_pickable_witness :
    (buildBatch 0 gDouble).isPickable = false ∧
    ((buildBatch 0 gDouble).thinMatrixBuffer.isSome = true →
      (buildBatch 0 gDouble).thinInstanceEnablePicking = some false) :=
  built_meshes_not_pickable 0 [gDouble] (buildBatch 0 gDouble)
    (by exact List.mem_map_of_mem _ (List.mem_singleton_self _))

-- ── Build progress trace (src/ifc/scene.ts, buildScene yields) ──────────────

inductive BuildPhase where
  | building
  | finalizing
deriving DecidableEq

structure BuildProgress where
  phase : BuildPhase
  done : ℕ
  total : ℕ
deriving DecidableEq

/-- The chunk start offsets of `for (let i = 0; i < n; i += c)`: `0, c, 2c, …`
while below `n` — for a positive chunk size `c` these are the `⌈n / c⌉`
multiples of `c` below `n` (with `c = 0` the TS loop would never terminate). -/
def chunkStarts (n c : ℕ) : List ℕ :=
  (List.range ((n + c - 1) / c)).map fun j => j * c

/-- The building-phase snapshots yielded by `buildScene`, one per chunk:
`{ phase: "building", done: min(i + chunkSize, n), total: n }`. -/
def buildingYields (n c : ℕ) : List BuildProgress :=
  (chunkStarts n c).map fun i => ⟨BuildPhase.building, min (i + c) n, n⟩

/-- The full sequence of `BuildProgress` snapshots yielded by one `buildScene`
run over `n` groups with chunk size `c`: the building snapshots followed by
the single finalizing snapshot `{ phase: "finalizing", done: 0, total: 1 }`. -/
def buildProgressTrace (n c : ℕ) : List BuildProgress :=
  buildingYields n c ++ [⟨BuildPhase.finalizing, 0, 1⟩]

/-- C5 counterexample: for one group and chunk size 1, the yielded snapshots
are `building 1/1` followed by `finalizing 0/1`, so `done` drops from 1 to 0
across the snapshot sequence — it is not monotonically non-decreasing. -/
theorem build_progress_monotone_cex :
    buildProgressTrace 1 1
      = [⟨BuildPhase.building, 1, 1⟩, ⟨BuildPhase.finalizing, 0, 1⟩] ∧
    ¬ List.Chain' (fun p q => p.done ≤ q.done) (buildProgressTrace 1 1) := by
  constructor
  · rfl
  · intro h
    have he : buildProgressTrace 1 1
        = [⟨BuildPhase.building, 1, 1⟩, ⟨BuildPhase.finalizing, 0, 1⟩] := rfl
    rw [he, List.chain'_cons] at h
    exact absurd h.1 (by decide)

lemma ceilDiv_facts (n c : ℕ) (hn : 0 < n) (hc : 0 < c) :
    0 < (n + c - 1) / c ∧ n ≤ c * ((n + c - 1) / c)
      ∧ c * ((n + c - 1) / c - 1) < n := by
  have hd := Nat.div_add_mod (n + c - 1) c
  have hr := Nat.mod_lt (n + c - 1) hc
  have h0 : 0 < (n + c - 1) / c := (Nat.one_le_div_iff hc).mpr (by omega)
  refine ⟨h0, by omega, ?_⟩
  have h2 : c * ((n + c - 1) / c - 1) + c = c * ((n + c - 1) / c) := by
    have h3 : (n + c - 1) / c - 1 + 1 = (n + c - 1) / c := by omega
    calc c * ((n + c - 1) / c - 1) + c
        = c * (((n + c - 1) / c - 1) + 1) := by ring
      _ = c * ((n + c - 1) / c) := by rw [h3]
  omega

lemma chunk_done_lt (n c j : ℕ) (hc : 0 < c) (hj : j + 1 < (n + c - 1) / c) :
    j * c + c < n := by
  have h1 : (j + 2) * c ≤ n + c - 1 := (Nat.le_div_iff_mul_le hc).mp (by omega)
  have h2 : (j + 2) * c = j * c + 2 * c := by ring
  omega

/-- C5 amended: restricted to the building-phase snapshots, `done` is
monotonically non-decreasing, `done = total` holds exactly once — at the last
building chunk, whose `done` equals the group count — but the trace then ends
with the finalizing snapshot `{done: 0, total: 1}`, which resets `done` and so
breaks monotonicity over the full snapshot sequence. -/
theorem build_progress_amended (n c : ℕ) (hn : 0 < n) (hc : 0 < c) :
    List.Chain' (fun p q => p.done ≤ q.done) (buildingYields n c) ∧
    (buildingYields n c).countP (fun p => p.done == p.total) = 1 ∧
    ((buildingYields n c).getLast?.map fun p => p.done) = some n ∧
    buildProgressTrace n c
      = buildingYields n c ++ [⟨BuildPhase.finalizing, 0, 1⟩] := by
  obtain ⟨hm0, hub, hlb⟩ := ceilDiv_facts n c hn hc
  obtain ⟨k, hk⟩ : ∃ k, (n + c - 1) / c = k + 1 :=
    ⟨(n + c - 1) / c - 1, by omega⟩
  have hYields : buildingYields n c = (List.range (k + 1)).map fun j =>
      (⟨BuildPhase.building, min (j * c + c) n, n⟩ : BuildProgress) := by
    rw [buildingYields, chunkStarts, hk, List.map_map]
    rfl
  have hB : n ≤ k * c + c := by
    rw [hk] at hub
    have : c * (k + 1) = k * c + c := by ring
    omega
  have hA : ∀ j, j < k → j * c + c < n := fun j hj =>
    chunk_done_lt n c j hc (by omega)
  refine ⟨?_, ?_, ?_, rfl⟩
  · rw [hYields, List.chain'_map]
    refine List.Pairwise.chain' ?_
    refine (List.pairwise_lt_range (k + 1)).imp ?_
    intro a b hab
    dsimp only
    have hle : a * c + c ≤ b * c + c := by
      have := Nat.mul_le_mul_right c (Nat.le_of_lt hab)
      omega
    exact min_le_min hle (le_refl n)
  · rw [hYields, List.countP_map, List.range_succ, List.countP_append]
    have hzero : (List.range k).countP ((fun p => p.done == p.total) ∘ fun j =>
        (⟨BuildPhase.building, min (j * c + c) n, n⟩ : BuildProgress)) = 0 := by
      refine List.countP_eq_zero.mpr ?_
      intro j hj
      rw [List.mem_range] at hj
      have hlt := hA j hj
      simp only [Function.comp_apply, beq_iff_eq]
      rw [min_eq_left (Nat.le_of_lt hlt)]
      omega
    have hone : ([k].countP ((fun p => p.done == p.total) ∘ fun j =>
        (⟨BuildPhase.building, min (j * c + c) n, n⟩ : BuildProgress))) = 1 := by
      have : min (k * c + c) n = n := min_eq_right hB
      simp [this]
    rw [hzero, hone]
  · rw [hYields, List.range_succ, List.map_append, List.map_singleton,
      List.getLast?_concat]
    have : min (k * c + c) n = n := min_eq_right hB
    simp [this]

/-- C5 witness: the amended statement evaluated at 5 groups with chunk size 2
(building `done` values 2, 4, 5; then the finalizing snapshot). -/
theorem build_progress_amended_witness :
    List.Chain' (fun p q => p.done ≤ q.done) (buildingYields 5 2) ∧
    (buildingYields 5 2).countP (fun p => p.done == p.total) = 1 ∧
    ((buildingYields 5 2).getLast?.map fun p => p.done) = some 5 ∧
    buildProgressTrace 5 2
      = buildingYields 5 2 ++ [⟨BuildPhase.finalizing, 0, 1⟩] :=
  build_progress_amended 5 2 (by decide) (by decide)

-- ── Claim C6 ────────────────────────────────────────────────────────────────

lemma floor255_eq_zero_iff (q : ℚ) (h0 : 0 ≤ q) :
    ⌊q * 255⌋ = 0 ↔ q < 1/255 := by
  rw [Int.floor_eq_zero_iff, Set.mem_Ico]
  constructor
  · intro hm
    linarith [hm.2]
  · intro h
    constructor
    · positivity
    · linarith

/-- A color all of whose channels are positive but below the quantization
granularity 1/255. -/
def faintGray : IfcColor := ⟨1/500, 1/500, 1/500, 1/500⟩

/-- C6 counterexample: the real color (1/500, 1/500, 1/500, 1/500) — every
channel positive, inside [0,1] — quantizes to the reserved no-color key 0, so
a real input color does collide with the no-color key. -/
theorem colorId_no_collision_cex :
    colorId (some faintGray) = 0 ∧ colorId none = 0 := by
  constructor
  · show (⌊(1/500 : ℚ) * 255⌋ + ⌊(1/500 : ℚ) * 255⌋ * 256
        + ⌊(1/500 : ℚ) * 255⌋ * 65536 + ⌊(1/500 : ℚ) * 255⌋ * 16777216) = 0
    norm_num
  · rfl

/-- C6 amended: the quantizer packs the floored channels exactly as specified
and maps an absent color to the reserved key 0; a present color with channels
in [0,1] collides with the reserved key 0 precisely when every channel is
below the quantization granularity 1/255 (e.g. transparent near-black), so
such colors — and only such colors — are conflated with "no color". -/
theorem colorId_quantization (c : IfcColor)
    (hx : 0 ≤ c.x ∧ c.x ≤ 1) (hy : 0 ≤ c.y ∧ c.y ≤ 1)
    (hz : 0 ≤ c.z ∧ c.z ≤ 1) (hw : 0 ≤ c.w ∧ c.w ≤ 1) :
    colorId (some c) = ⌊c.x * 255⌋ + ⌊c.y * 255⌋ * 256 + ⌊c.z * 255⌋ * 65536
        + ⌊c.w * 255⌋ * 16777216 ∧
    colorId none = 0 ∧
    (colorId (some c) = 0 ↔
      (c.x < 1/255 ∧ c.y < 1/255 ∧ c.z < 1/255 ∧ c.w < 1/255)) := by
  have hfr : 0 ≤ ⌊c.x * 255⌋ := Int.floor_nonneg.mpr (by nlinarith [hx.1])
  have hfg : 0 ≤ ⌊c.y * 255⌋ := Int.floor_nonneg.mpr (by nlinarith [hy.1])
  have hfb : 0 ≤ ⌊c.z * 255⌋ := Int.floor_nonneg.mpr (by nlinarith [hz.1])
  have hfa : 0 ≤ ⌊c.w * 255⌋ := Int.floor_nonneg.mpr (by nlinarith [hw.1])
  refine ⟨rfl, rfl, ?_⟩
  constructor
  · intro h
    have hsum : ⌊c.x * 255⌋ + ⌊c.y * 255⌋ * 256 + ⌊c.z * 255⌋ * 65536
        + ⌊c.w * 255⌋ * 16777216 = 0 := h
    have hr : ⌊c.x * 255⌋ = 0 := by omega
    have hg : ⌊c.y * 255⌋ = 0 := by omega
    have hb : ⌊c.z * 255⌋ = 0 := by omega
    have ha : ⌊c.w * 255⌋ = 0 := by omega
    exact ⟨(floor255_eq_zero_iff c.x hx.1).mp hr,
      (floor255_eq_zero_iff c.y hy.1).mp hg,
      (floor255_eq_zero_iff c.z hz.1).mp hb,
      (floor255_eq_zero_iff c.w hw.1).mp ha⟩
  · rintro ⟨h1, h2, h3, h4⟩
    show ⌊c.x * 255⌋ + ⌊c.y * 255⌋ * 256 + ⌊c.z * 255⌋ * 65536
        + ⌊c.w * 255⌋ * 16777216 = 0
    rw [(floor255_eq_zero_iff c.x hx.1).mpr h1,
      (floor255_eq_zero_iff c.y hy.1).mpr h2,
      (floor255_eq_zero_iff c.z hz.1).mpr h3,
      (floor255_eq_zero_iff c.w hw.1).mpr h4]
    ring

/-- C6 witness: the amended statement evaluated at opaque red (1,0,0,1). -/
theorem colorId_quantization_witness :
    colorId (some redColor) = ⌊redColor.x * 255⌋ + ⌊redColor.y * 255⌋ * 256
        + ⌊redColor.z * 255⌋ * 65536 + ⌊redColor.w * 255⌋ * 16777216 ∧
    colorId none = 0 ∧
    (colorId (some redColor) = 0 ↔
      (redColor.x < 1/255 ∧ redColor.y < 1/255 ∧ redColor.z < 1/255
        ∧ redColor.w < 1/255)) :=
  colorId_quantization redColor (by norm_num [redColor]) (by norm_num [redColor])
    (by norm_num [redColor]) (by norm_num [redColor])

-- ── Bounds computer (src/ifc/scene.ts, getModelBounds) ──────────────────────

/-- A built mesh as seen by `getModelBounds`: visibility, vertex count and the
world-space bounding box delivered by the engine (`minimumWorld`,
`maximumWorld`), modelled at the interface boundary. -/
structure MeshBoundsInfo where
  isVisible : Bool
  totalVertices : ℕ
  minX : ℚ
  minY : ℚ
  minZ : ℚ
  maxX : ℚ
  maxY : ℚ
  maxZ : ℚ
deriving DecidableEq

/-- The loop's skip condition inverted: a mesh contributes unless it is
invisible or has zero vertices. -/
def contributes (m : MeshBoundsInfo) : Bool :=
  m.isVisible && decide (m.totalVertices ≠ 0)

/-- The result record of `getModelBounds` (its rational fields; `diagonal` is
the derived real number below). -/
structure BoundsInfo where
  min : ℚ × ℚ × ℚ
  max : ℚ × ℚ × ℚ
  center : ℚ × ℚ × ℚ
  size : ℚ × ℚ × ℚ
deriving DecidableEq

/-- `diagonal = sqrt(size.x² + size.y² + size.z²)`, the Euclidean norm of the
size vector. -/
noncomputable def diagonal (b : BoundsInfo) : ℝ :=
  Real.sqrt ((b.size.1 : ℝ) ^ 2 + (b.size.2.1 : ℝ) ^ 2 + (b.size.2.2 : ℝ) ^ 2)

/-- Embedding of `getModelBounds`: running min/max over the contributing
meshes (the `±Infinity` initialisation means the first contributing mesh
seeds the accumulators), `null` when no mesh contributes. -/
def getModelBounds (meshes : List MeshBoundsInfo) : Option BoundsInfo :=
  match meshes.filter contributes with
  | [] => none
  | m0 :: rest =>
      let mnX := rest.foldl (fun a m => min a m.minX) m0.minX
      let mnY := rest.foldl (fun a m => min a m.minY) m0.minY
      let mnZ := rest.foldl (fun a m => min a m.minZ) m0.minZ
      let mxX := rest.foldl (fun a m => max a m.maxX) m0.maxX
      let mxY := rest.foldl (fun a m => max a m.maxY) m0.maxY
      let mxZ := rest.foldl (fun a m => max a m.maxZ) m0.maxZ
      some { min := (mnX, mnY, mnZ),
             max := (mxX, mxY, mxZ),
             center := ((mnX + mxX) / 2, (mnY + mxY) / 2, (mnZ + mxZ) / 2),
             size := (mxX - mnX, mxY - mnY, mxZ - mnZ) }

/-- A visible 8-vertex mesh whose world bounding box is the given axis-aligned
box. -/
def cubeMesh (x0 y0 z0 x1 y1 z1 : ℚ) : MeshBoundsInfo :=
  ⟨true, 8, x0, y0, z0, x1, y1, z1⟩

/-- Three unit cubes spanning (0,0,0)-(1,1,1), (2,0,0)-(3,1,1) and
(0,2,0)-(1,3,1). -/
def demoMeshes : List MeshBoundsInfo :=
  [cubeMesh 0 0 0 1 1 1, cubeMesh 2 0 0 3 1 1, cubeMesh 0 2 0 1 3 1]

def demoBoundsValue : BoundsInfo :=
  ⟨(0, 0, 0), (3, 3, 1), (3/2, 3/2, 1/2), (3, 3, 1)⟩

lemma demoBounds_eq : getModelBounds demoMeshes = some demoBoundsValue := by
  show some _ = some demoBoundsValue
  rw [Option.some_inj, demoBoundsValue]
  simp only [BoundsInfo.mk.injEq, Prod.mk.injEq]
  norm_num [cubeMesh, contributes, List.filter, List.foldl, min_def, max_def]

lemma demoBounds_diagonal : diagonal demoBoundsValue = Real.sqrt 19 := by
  rw [diagonal, demoBoundsValue]
  norm_num

/-- C7 counterexample: on the three unit cubes the computed center is
(1.5, 1.5, 0.5) as claimed, but the diagonal is √19 ≈ 4.36, not ≈ 3.5 (the
size vector is (3,3,1), and ‖(3,3,1)‖ = √19); even with a generous tolerance
of 0.5 the claimed value is wrong. -/
theorem model_bounds_diagonal_cex :
    getModelBounds demoMeshes = some demoBoundsValue ∧
    demoBoundsValue.center = (3/2, 3/2, 1/2) ∧
    ¬ |diagonal demoBoundsValue - 3.5| ≤ 1/2 := by
  refine ⟨demoBounds_eq, rfl, ?_⟩
  rw [demoBounds_diagonal]
  intro habs
  have h4 : (4 : ℝ) < Real.sqrt 19 := by
    rw [Real.lt_sqrt (by norm_num)]
    norm_num
  have hb := (abs_le.mp habs).2
  have : (3.5 : ℝ) + 1/2 = 4 := by norm_num
  linarith

/-- C7 amended: for the three unit cubes the bounds computation returns
center (1.5, 1.5, 0.5) and size (3, 3, 1), whose Euclidean norm — the
diagonal — is √19 ≈ 4.36 (not 3.5). -/
theorem model_bounds_demo :
    getModelBounds demoMeshes = some demoBoundsValue ∧
    demoBoundsValue.center = (3/2, 3/2, 1/2) ∧
    demoBoundsValue.size = (3, 3, 1) ∧
    diagonal demoBoundsValue = Real.sqrt 19 ∧
    4.35 < diagonal demoBoundsValue ∧ diagonal demoBoundsValue < 4.36 := by
  refine ⟨demoBounds_eq, rfl, rfl, demoBounds_diagonal, ?_, ?_⟩
  · rw [demoBounds_diagonal, Real.lt_sqrt (by norm_num)]
    norm_num
  · rw [demoBounds_diagonal, Real.sqrt_lt' (by norm_num)]
    norm_num

-- ── Lifecycle manager (src/ifc/scene.ts, disposeScene) ──────────────────────

/-- A material in the Babylon scene, identified by its name. -/
structure MaterialRef where
  name : String
deriving DecidableEq

/-- A transform node in the Babylon scene (uid is the engine's unique object
identity; distinct nodes may share a name). -/
structure TransformNodeRef where
  uid : ℕ
  name : String
deriving DecidableEq

/-- A mesh in the Babylon scene with its parent transform node (by uid). -/
structure MeshRef where
  uid : ℕ
  name : String
  parentUid : Option ℕ
deriving DecidableEq

/-- The Babylon scene at the interface boundary used by `disposeScene`: the
material list, the transform-node list and the mesh list.  Disposing a
material removes it from `scene.materials`; disposing a transform node
removes the node and (recursively) its child meshes. -/
structure SceneState where
  materials : List MaterialRef
  transformNodes : List TransformNodeRef
  meshes : List MeshRef
deriving DecidableEq

/-- Whether the first character list is an initial segment of the second. -/
def strStarts : List Char → List Char → Bool
  | [], _ => true
  | _ :: _, [] => false
  | c :: cs, d :: ds => c == d && strStarts cs ds

/-- The test `m.name.startsWith("ifc-material-")`, expressed over the names'
character lists. -/
def isIfcMaterial (m : MaterialRef) : Bool :=
  strStarts "ifc-material-".data m.name.data

def isIfcRoot (t : TransformNodeRef) : Bool :=
  t.name == "ifc-root"


/-- Babylon's `Scene.removeMaterial`, triggered synchronously by
`Material.dispose()`: the removed material's slot is overwritten with the
array's last material (unless it already is the last), then the array is
popped.  The removal mutates the live `scene.materials` array. -/
def removeAtSwap (l : List MaterialRef) (k : ℕ) : List MaterialRef :=
  if k + 1 = l.length then
    l.dropLast
  else
    (l.set k (l.getD (l.length - 1) ⟨""⟩)).dropLast

/-- The material pass of `disposeScene`:
`scene.materials.forEach(m => { if (m.name.startsWith("ifc-material-")) m.dispose(); })`.
JavaScript's `forEach` captures the length once and visits indexes
`k = 0 … length-1` of the LIVE array, skipping indexes the array no longer
reaches; each `dispose()` removes the visited material via `removeAtSwap`, so
the material moved into slot `k` is never visited.  `fuel` counts the
remaining iterations (initially the captured length).  Returns the final
array together with the materials actually disposed, in call order. -/
def disposeMaterialsFrom : ℕ → ℕ → List MaterialRef → List MaterialRef × List MaterialRef
  | _, 0, cur => (cur, [])
  | k, fuel + 1, cur =>
      if h : k < cur.length then
        let m := cur.get ⟨k, h⟩
        if isIfcMaterial m then
          let r := disposeMaterialsFrom (k + 1) fuel (removeAtSwap cur k)
          (r.1, m :: r.2)
        else
          disposeMaterialsFrom (k + 1) fuel cur
      else
        disposeMaterialsFrom (k + 1) fuel cur

/-- One run of the `forEach` material-disposal pass over `scene.materials`. -/
def disposeMaterialsPass (l : List MaterialRef) : List MaterialRef × List MaterialRef :=
  disposeMaterialsFrom 0 l.length l

/-- Embedding of `disposeScene`: run the `forEach` disposal pass over
`scene.materials`, then look up the transform node named "ifc-root"
(`getTransformNodeByName`, first match or null) and dispose it together with
its children; absent root means no node disposal (`?.`). -/
def disposeScene (s : SceneState) : SceneState :=
  let materials := (disposeMaterialsPass s.materials).1
  match s.transformNodes.find? isIfcRoot with
  | none => { s with materials := materials }
  | some root =>
      { materials := materials,
        transformNodes := s.transformNodes.filter fun t => !(t.uid == root.uid),
        meshes := s.meshes.filter fun mm => !(mm.parentUid == some root.uid) }

/-- A built scene with two IFC materials (a build with two distinct color
keys creates one material per key, consecutively), the IFC root node and one
mesh under it. -/
def sceneTwoMats : SceneState :=
  ⟨[⟨"ifc-material-0"⟩, ⟨"ifc-material-1"⟩],
   [⟨1, "ifc-root"⟩],
   [⟨3, "ifc-geo-5", some 1⟩]⟩

-- ── Claim C8 ────────────────────────────────────────────────────────────────

/-- C8: disposal is NOT idempotent.  On a built scene with two IFC materials,
the first `disposeScene` call disposes `ifc-material-0`; its removal moves
`ifc-material-1` into the already-visited slot 0, so the `forEach` pass skips
it and it survives the call.  The second call then disposes it, so the state
after one call differs from the state after two — contradicting the claim and
the function's own doc comment ("Dispose all IFC meshes, materials, and the
root node from the scene"). -/
theorem dispose_scene_not_idempotent :
    (disposeScene sceneTwoMats).materials = [⟨"ifc-material-1"⟩] ∧
    (disposeScene (disposeScene sceneTwoMats)).materials = [] ∧
    disposeScene (disposeScene sceneTwoMats) ≠ disposeScene sceneTwoMats := by
  decide

-- ── Claim C10 ───────────────────────────────────────────────────────────────

/-- C10: one `disposeScene` call does NOT dispose exactly the materials named
"ifc-material-…": on the two-IFC-material scene, `ifc-material-1` matches the
prefix and is in the scene, yet it is still present (undisposed) after the
call, because the `forEach` pass skipped the slot it was swapped into.  The
node part behaves as claimed: the "ifc-root" node and its child mesh are
removed. -/
theorem dispose_scene_skips_ifc_material :
    isIfcMaterial ⟨"ifc-material-1"⟩ = true ∧
    (⟨"ifc-material-1"⟩ : MaterialRef) ∈ sceneTwoMats.materials ∧
    (⟨"ifc-material-1"⟩ : MaterialRef) ∈ (disposeScene sceneTwoMats).materials ∧
    (disposeScene sceneTwoMats).transformNodes = [] ∧
    (disposeScene sceneTwoMats).meshes = [] := by
  decide
